import Mathlib

/-!
# Player controller of the voxel sky-road game

A shallow embedding of `src/player.cpp` (class `Player`) together with the
properties of its damage / power-up state machine, fire cooldown, dash decay,
vertical movement and model lookups.

Modelling conventions

* `float` quantities are rationals (`ℚ`) and the operations on them are
  exact, with one exception: the dash decay is given a second time with its
  operations rounded to binary32 (`dashDecay32`), for the statements that
  depend on the rounding.
* The back-reference `game` of the C++ class is passed explicitly as a `Game`
  value holding what one frame reads from it (clock, keys, mouse buttons,
  camera, level).
* Clips handed to `game.audioEngine.play` are appended to the field `audio`
  of the player record, so that "no sound is played" is observable.
* Numeric library routines whose results are not rational (`glm::normalize`,
  the rotation of the facing vector, the cursor un-projection) are functions
  supplied by the `Game` value.
* An out-of-range `std::vector` access has no defined result; the functions
  performing model lookups return `Option Player` and give `none` there.
-/

namespace SkyRoad

/-- Three component vector (`glm::vec3`) over the rationals. -/
structure Vec3 where
  x : ℚ
  y : ℚ
  z : ℚ
deriving DecidableEq

namespace Vec3

/-- The vector `glm::vec3(0, 0, 0)`. -/
def zero : Vec3 := ⟨0, 0, 0⟩

/-- Componentwise sum. -/
def add (a b : Vec3) : Vec3 := ⟨a.x + b.x, a.y + b.y, a.z + b.z⟩

/-- Componentwise difference. -/
def sub (a b : Vec3) : Vec3 := ⟨a.x - b.x, a.y - b.y, a.z - b.z⟩

/-- Product with a scalar (`s * v` and `v * s` of glm). -/
def smul (s : ℚ) (a : Vec3) : Vec3 := ⟨s * a.x, s * a.y, s * a.z⟩

/-- Cross product (`glm::cross`). -/
def cross (a b : Vec3) : Vec3 :=
  ⟨a.y * b.z - b.y * a.z, a.z * b.x - b.z * a.x, a.x * b.y - b.x * a.y⟩

end Vec3

/-- Life cycle state of a character (`ALIVE`, `DYING`, `DEAD`). -/
inductive CharState where
  | ALIVE
  | DYING
  | DEAD
deriving DecidableEq

/-- The audio clips loaded by the constructor of `Player`. -/
inductive Clip where
  | shootAudio
  | damageAudio
  | dashAudio
  | deathAudio
  | jumpAudio
  | landAudio
deriving DecidableEq

/-- A voxel model, as far as the player code reads it: its bounding box `getSize()`. -/
structure VoxelModel where
  size : Vec3
deriving DecidableEq

/-- A bullet: the six arguments of `bullets.emplace_back` in `Player::fire`.
The class itself is declared outside `player.cpp`. -/
structure Bullet where
  position : Vec3
  direction : Vec3
  color : Vec3
  rotation : ℚ
  scale : ℚ
  budget : ℚ
deriving DecidableEq

/-- The fields of `Player` (and of its base class `Character`) that
`player.cpp` reads or writes. The class declarations are outside the given
sources; `hp` is an integer, the times and tunables are `float`s. The field
`audio` is the log of clips passed to `game.audioEngine.play`, oldest first. -/
structure Player where
  charModels : List VoxelModel
  deathModels : List VoxelModel
  modelIndex : Nat
  modelUpdateDelay : ℚ
  lastModelUpdate : ℚ
  pos : Vec3
  rotate : Vec3
  scale : ℚ
  hp : Int
  state : CharState
  tintColor : Vec3
  tintDuration : ℚ
  lastDamaged : ℚ
  poweredUp : Bool
  powerUpDuration : ℚ
  lastPowerUpTime : ℚ
  speed : ℚ
  verticalVelocity : ℚ
  grounded : Bool
  dashDirection : Vec3
  dashVelocity : ℚ
  dashCooldown : ℚ
  lastDashTime : ℚ
  bullets : List Bullet
  bulletSpeed : ℚ
  bulletScale : ℚ
  fireCooldown : ℚ
  lastFireTime : ℚ
  audio : List Clip

/-- The level, as seen from `player.cpp`: the collision oracle
`checkPlayerLevelCollision`, the test `outOfBounds`, the scroll rate
`islandSpeed`, and the three side-effecting collision checks called by
`updateState`. -/
structure Level where
  checkPlayerLevelCollision : Player → Vec3
  outOfBounds : Player → Bool
  islandSpeed : ℚ
  checkPlayerBulletCollision : Player → Player
  checkBulletEnemyCollisions : Player → Player
  checkPlayerPickupCollision : Player → Player

/-- What one frame reads from the `Game` object: the clock, the keys and mouse
buttons, the camera position, the current level, the value returned by
`rand()`, and the glm computations that leave the rationals
(`normalize`; `facing yaw`, the vector that `fire` and the dash block obtain
by rotating `(-1, 0, 0)` by `yaw` degrees about the vertical axis and
normalizing; `cursorYaw midPos`, the signed angle in degrees computed by
`rotatePlayer` from the cursor ray and the mid-point). -/
structure Game where
  elapsedTime : ℚ
  keyW : Bool
  keyA : Bool
  keyS : Bool
  keyD : Bool
  keySpace : Bool
  mouse1 : Bool
  mouse2 : Bool
  cameraPosition : Vec3
  currentLevel : Level
  rand : Nat
  normalize : Vec3 → Vec3
  facing : ℚ → Vec3
  cursorYaw : Vec3 → ℚ

/-- The methods of the base class `Character` and of the bullet trail that
`Player::updateState` calls and whose bodies are outside `player.cpp`. -/
structure Character where
  nextModel : Player → Player
  moveBullets : ℚ → Player → Player
  trailUpdate : ℚ → Bullet → Bullet

/-- The palette `bulletColors`. -/
def bulletColors : List Vec3 :=
  [⟨1, 1/5, 3/5⟩, ⟨2/5, 4/5, 1⟩, ⟨1, 1, 2/5⟩]

/-! ## Damage and power-up -/

/-- `Player::takeDamage` (player.cpp, lines 117-136). -/
def takeDamage (g : Game) (p : Player) : Player :=
  if p.poweredUp = true then p
  else if g.elapsedTime - p.lastDamaged ≤ p.tintDuration then p
  else if p.state ≠ CharState.ALIVE then p
  else
    let p := { p with hp := p.hp - 1 }
    let p := { p with audio := p.audio ++ [Clip.damageAudio] }
    let p := { p with lastDamaged := g.elapsedTime }
    let p := { p with tintColor := ⟨1, 0, 0⟩ }
    if p.hp = 0 then
      { p with
        audio := p.audio ++ [Clip.deathAudio]
        state := CharState.DYING
        modelUpdateDelay := 1 / 5
        modelIndex := 0 }
    else p

/-- `Player::powerUp` (player.cpp, lines 139-145). -/
def powerUp (g : Game) (p : Player) : Player :=
  { p with
    poweredUp := true
    tintColor := ⟨1, 4 / 5, 0⟩
    fireCooldown := p.fireCooldown / 2
    lastPowerUpTime := g.elapsedTime }

/-- The last two statements of `Player::updateState` (lines 78-88): the tint
check followed by the power-up expiry check. -/
def updateTint (g : Game) (p : Player) : Player :=
  let p :=
    if p.poweredUp = false ∧ g.elapsedTime - p.lastDamaged ≥ p.tintDuration then
      { p with tintColor := ⟨1, 1, 1⟩ }
    else p
  if p.poweredUp = true ∧ g.elapsedTime - p.lastPowerUpTime ≥ p.powerUpDuration then
    { p with
      tintColor := ⟨1, 1, 1⟩
      poweredUp := false
      fireCooldown := p.fireCooldown * 2 }
  else p

/-- The first part of `Player::updateState` (lines 59-76): the model
update, the bullet move, the three collision checks of the level and the
update of the bullet trails. -/
def updateCollaborators (c : Character) (g : Game) (dt : ℚ) (p : Player) : Player :=
  let p :=
    if g.elapsedTime - p.lastModelUpdate ≥ p.modelUpdateDelay then c.nextModel p else p
  let p := c.moveBullets dt p
  let p := g.currentLevel.checkPlayerBulletCollision p
  let p := g.currentLevel.checkBulletEnemyCollisions p
  let p := g.currentLevel.checkPlayerPickupCollision p
  { p with bullets := p.bullets.map (c.trailUpdate dt) }

/-- `Player::updateState` (player.cpp, lines 57-89). -/
def updateState (c : Character) (g : Game) (dt : ℚ) (p : Player) : Player :=
  updateTint g (updateCollaborators c g dt p)

/-- A helper called by `updateState` leaves the power-up fields of the player
(`poweredUp`, `lastPowerUpTime`, `powerUpDuration`, `fireCooldown`) as they
are: it calls back neither `powerUp` nor anything else that writes them. -/
def KeepsPowerUp (f : Player → Player) : Prop :=
  ∀ q, (f q).poweredUp = q.poweredUp ∧ (f q).lastPowerUpTime = q.lastPowerUpTime ∧
    (f q).powerUpDuration = q.powerUpDuration ∧ (f q).fireCooldown = q.fireCooldown

/-! ## Movement -/

/-- One axis of the dash decay, the conditional expression
`(d - (2 * dt) < 0) ? 0 : d - (2 * dt)` of `Player::movePlayer`. -/
def dashDecay (dt d : ℚ) : ℚ :=
  if d - 2 * dt < 0 then 0 else d - 2 * dt

/-- The displacement requested by the movement keys, the first part of
`Player::movePlayer` (player.cpp, lines 149-172). -/
def keyMovement (g : Game) (dt : ℚ) (p : Player) : Vec3 :=
  let fb := g.cameraPosition.sub p.pos
  let fb := g.normalize ⟨fb.x, 0, fb.z⟩
  let up : Vec3 := ⟨0, 1, 0⟩
  let lr := g.normalize (Vec3.cross up fb)
  let movement : Vec3 := ⟨0, 0, 0⟩
  let movement := if g.keyW = true then movement.sub (Vec3.smul (p.speed * dt) fb) else movement
  let movement := if g.keyA = true then movement.sub (Vec3.smul (p.speed * dt) lr) else movement
  let movement := if g.keyS = true then movement.add (Vec3.smul (p.speed * dt) fb) else movement
  let movement := if g.keyD = true then movement.add (Vec3.smul (p.speed * dt) lr) else movement
  movement

/-- `Player::movePlayer` up to, and not including, the out-of-bounds test
(player.cpp, lines 149-198): key movement, collision resolution along z then
x, dash, level scroll. -/
def movePlayerMotion (g : Game) (dt : ℚ) (p : Player) : Player :=
  let movement := keyMovement g dt p
  let p := { p with pos := { p.pos with z := p.pos.z + movement.z } }
  let displacement := g.currentLevel.checkPlayerLevelCollision p
  let p := { p with pos := { p.pos with z := p.pos.z + displacement.z } }
  let p := { p with pos := { p.pos with x := p.pos.x + movement.x } }
  let displacement := g.currentLevel.checkPlayerLevelCollision p
  let p := { p with pos := { p.pos with x := p.pos.x + displacement.x } }
  let p :=
    if p.dashDirection ≠ ⟨0, 0, 0⟩ then
      let p := { p with pos := p.pos.add (Vec3.smul dt (Vec3.smul p.dashVelocity p.dashDirection)) }
      let p := { p with dashDirection := { p.dashDirection with x := dashDecay dt p.dashDirection.x } }
      let p := { p with dashDirection := { p.dashDirection with y := dashDecay dt p.dashDirection.y } }
      { p with dashDirection := { p.dashDirection with z := dashDecay dt p.dashDirection.z } }
    else p
  if p.grounded = true then
    { p with pos := { p.pos with z := p.pos.z - g.currentLevel.islandSpeed * dt } }
  else p

/-- `Player::movePlayer` (player.cpp, lines 147-204): the motion, then the
out-of-bounds test. -/
def movePlayer (g : Game) (dt : ℚ) (p : Player) : Player :=
  let p := movePlayerMotion g dt p
  if g.currentLevel.outOfBounds p = true then { p with state := CharState.DEAD } else p

/-- The first conditional of `Player::moveVertical` (lines 208-216): a
grounded player with the space key pressed jumps. -/
def jumpStep (g : Game) (p : Player) : Player :=
  if p.grounded = true then
    if g.keySpace = true then
      { p with
        audio := p.audio ++ [Clip.jumpAudio]
        grounded := false
        verticalVelocity := 1 }
    else p
  else p

/-- The second conditional of `Player::moveVertical` (lines 218-225): a
grounded player is moved vertically to probe for ground below. -/
def groundStep (g : Game) (dt : ℚ) (p : Player) : Player :=
  if p.grounded = true then
    let p := { p with pos := { p.pos with y := p.pos.y + p.speed * dt * p.verticalVelocity } }
    let displacement := g.currentLevel.checkPlayerLevelCollision p
    let p := { p with pos := { p.pos with y := p.pos.y + displacement.y } }
    if displacement.y ≤ 0 then { p with grounded := false } else p
  else p

/-- The third conditional of `Player::moveVertical` (lines 227-242): an
airborne player moves vertically, loses `dt` of vertical velocity, and lands
or hits a ceiling according to the sign of the collision displacement. -/
def airStep (g : Game) (dt : ℚ) (p : Player) : Player :=
  if p.grounded = false then
    let p := { p with pos := { p.pos with y := p.pos.y + p.speed * dt * p.verticalVelocity } }
    let p := { p with verticalVelocity := p.verticalVelocity - dt }
    let displacement := g.currentLevel.checkPlayerLevelCollision p
    let p := { p with pos := { p.pos with y := p.pos.y + displacement.y } }
    let p :=
      if displacement.y > 0 then
        { p with
          audio := p.audio ++ [Clip.landAudio]
          grounded := true
          verticalVelocity := -(1 / 10) }
      else p
    if displacement.y < 0 then { p with verticalVelocity := 0 } else p
  else p

/-- `Player::moveVertical` (player.cpp, lines 206-243): its three
conditionals in sequence. -/
def moveVertical (g : Game) (dt : ℚ) (p : Player) : Player :=
  airStep g dt (groundStep g dt (jumpStep g p))

/-- The point at the middle of `model` placed at the player position, as
computed both by `rotatePlayer` and by `fire`. -/
def midPos (p : Player) (model : VoxelModel) : Vec3 :=
  p.pos.add ⟨1 / 2 * p.scale * model.size.x, 1 / 2 * p.scale * model.size.y,
    1 / 2 * p.scale * model.size.z⟩

/-- `Player::rotatePlayer` (player.cpp, lines 245-277). The lookup
`charModels[modelIndex]` gives `none` when the index is out of range. -/
def rotatePlayer (g : Game) (_dt : ℚ) (p : Player) : Option Player :=
  match p.charModels[p.modelIndex]? with
  | none => none
  | some model =>
    some { p with rotate := { p.rotate with y := g.cursorYaw (midPos p model) } }

/-- `Player::fire` (player.cpp, lines 279-299). The model lookup, in
`charModels` when ALIVE and in `deathModels` otherwise, gives `none` when the
index is out of range. -/
def fire (g : Game) (p : Player) : Option Player :=
  let model :=
    if p.state = CharState.ALIVE then p.charModels[p.modelIndex]?
    else p.deathModels[p.modelIndex]?
  match model with
  | none => none
  | some model =>
    let direction := g.facing p.rotate.y
    let bulletColor := bulletColors.getD (g.rand % bulletColors.length) Vec3.zero
    some { p with
      bullets := p.bullets ++ [⟨midPos p model, direction, bulletColor, p.rotate.y, p.bulletScale, 10⟩]
      audio := p.audio ++ [Clip.shootAudio] }

/-- The mouse1 block of `Player::processInput` (lines 97-102). -/
def fireInput (g : Game) (p : Player) : Option Player :=
  if g.mouse1 = true ∧ g.elapsedTime - p.lastFireTime ≥ p.fireCooldown then
    fire g { p with lastFireTime := g.elapsedTime }
  else some p

/-- The mouse2 block of `Player::processInput` (lines 104-114). -/
def dashInput (g : Game) (p : Player) : Player :=
  if g.mouse2 = true ∧ g.elapsedTime - p.lastDashTime ≥ p.dashCooldown then
    { p with
      lastDashTime := g.elapsedTime
      audio := p.audio ++ [Clip.dashAudio]
      dashDirection := g.facing p.rotate.y }
  else p

/-- `Player::processInput` (player.cpp, lines 91-115). -/
def processInput (g : Game) (dt : ℚ) (p : Player) : Option Player :=
  let p := movePlayer g dt p
  let p := moveVertical g dt p
  match rotatePlayer g dt p with
  | none => none
  | some p =>
    match fireInput g p with
    | none => none
    | some p => some (dashInput g p)

/-! ## Binary32 arithmetic of the dash decay

The rest of the model computes with exact rationals. How many steps a dash
takes to come to rest depends on the rounding of the repeated subtraction
`d - 2 * dt`, so the dash decay is also given with the `float` operations
rounded to binary32 (round to nearest, ties to even, subnormals included;
no overflow occurs on the values of a dash, which never grow). -/

/-- The integer nearest to `x`, the even one when `x` is halfway between two
integers. -/
def roundHalfEven (x : ℚ) : ℤ :=
  if x - ⌊x⌋ < 1 / 2 then ⌊x⌋
  else if 1 / 2 < x - ⌊x⌋ then ⌊x⌋ + 1
  else if ⌊x⌋ % 2 = 0 then ⌊x⌋ else ⌊x⌋ + 1

/-- The exponent of the binary32 grid at the magnitude of `q`: 24 significant
bits for a binade `[2 ^ e, 2 ^ (e + 1))` with `e ≥ -126`, the subnormal grid
`2 ^ (-149)` below. -/
def ulpExp32 (q : ℚ) : ℤ :=
  max (Int.log 2 |q|) (-126) - 23

/-- The binary32 value nearest to `q`, ties to even. -/
def rn32 (q : ℚ) : ℚ :=
  roundHalfEven (q / 2 ^ ulpExp32 q) * 2 ^ ulpExp32 q

/-- The rational `q` is a binary32 value. -/
def IsFloat32 (q : ℚ) : Prop :=
  rn32 q = q

instance instDecidableIsFloat32 (q : ℚ) : Decidable (IsFloat32 q) := by
  unfold IsFloat32
  infer_instance

/-- One axis of the dash decay, `(d - (2 * dt) < 0) ? 0 : d - (2 * dt)`, with
the `float` product and difference rounded to binary32. -/
def dashDecay32 (dt d : ℚ) : ℚ :=
  if rn32 (d - rn32 (2 * dt)) < 0 then 0 else rn32 (d - rn32 (2 * dt))

/-- The vector has non-negative binary32 components. -/
def Vec3.NonnegFloat32 (v : Vec3) : Prop :=
  (0 ≤ v.x ∧ IsFloat32 v.x) ∧ (0 ≤ v.y ∧ IsFloat32 v.y) ∧ (0 ≤ v.z ∧ IsFloat32 v.z)

instance instDecidableNonnegFloat32 (v : Vec3) : Decidable v.NonnegFloat32 := by
  unfold Vec3.NonnegFloat32
  infer_instance

/-- The operations on the player that the damage state machine is about:
`takeDamage`, `powerUp`, the tint / power-up expiry of `updateState`, and
`movePlayer` with its out-of-bounds test, each with the frame it runs in. -/
inductive PlayerOp where
  | takeDamage (g : Game)
  | powerUp (g : Game)
  | updateTint (g : Game)
  | movePlayer (g : Game) (dt : ℚ)

/-- The effect of one operation. -/
def PlayerOp.apply : PlayerOp → Player → Player
  | PlayerOp.takeDamage g, p => SkyRoad.takeDamage g p
  | PlayerOp.powerUp g, p => SkyRoad.powerUp g p
  | PlayerOp.updateTint g, p => SkyRoad.updateTint g p
  | PlayerOp.movePlayer g dt, p => SkyRoad.movePlayer g dt p

/-- The player after a finite sequence of operations, first operation first. -/
def run (ops : List PlayerOp) (p : Player) : Player :=
  ops.foldl (fun q op => op.apply q) p

/-- The number of steps of the sequence on which the state goes from ALIVE
to DYING. -/
def dyingTransitions : List PlayerOp → Player → Nat
  | [], _ => 0
  | op :: ops, p =>
    (if p.state = CharState.ALIVE ∧ (op.apply p).state = CharState.DYING then 1 else 0)
      + dyingTransitions ops (op.apply p)

/-- Successive calls of `powerUp`, one for each frame of the list. -/
def powerUps (gs : List Game) (p : Player) : Player :=
  gs.foldl (fun q g => powerUp g q) p

/-- Successive `movePlayer` steps with the same `dt`, one for each frame of
the list. -/
def movePlayerSteps (gs : List Game) (dt : ℚ) (p : Player) : Player :=
  gs.foldl (fun q g => movePlayer g dt q) p

/-- The largest component magnitude of a vector. -/
def Vec3.maxAbs (v : Vec3) : ℚ :=
  max |v.x| (max |v.y| |v.z|)

/-- The model-index invariant: `charModels` has the two entries and
`deathModels` the five entries pushed by the constructor, and `modelIndex` is
a valid index into the array selected by the state (`charModels` when ALIVE,
`deathModels` when DYING or DEAD). -/
def ModelIndexValid (p : Player) : Prop :=
  p.charModels.length = 2 ∧ p.deathModels.length = 5 ∧
  (if p.state = CharState.ALIVE then p.modelIndex < p.charModels.length
   else p.modelIndex < p.deathModels.length)

instance instDecidableModelIndexValid (p : Player) : Decidable (ModelIndexValid p) := by
  unfold ModelIndexValid
  infer_instance

/-! ## Sample states -/

/-- A level without obstacles: the collision oracle reports zero displacement,
nothing is out of bounds, the collision checks make no callback. -/
def openLevel : Level where
  checkPlayerLevelCollision := fun _ => ⟨0, 0, 0⟩
  outOfBounds := fun _ => false
  islandSpeed := 0
  checkPlayerBulletCollision := fun q => q
  checkBulletEnemyCollisions := fun q => q
  checkPlayerPickupCollision := fun q => q

/-- Base class helpers that change nothing. -/
def idleCharacter : Character where
  nextModel := fun q => q
  moveBullets := fun _ q => q
  trailUpdate := fun _ b => b

/-- A frame at clock value `t` with no key and no button pressed. -/
def idleFrame (t : ℚ) : Game where
  elapsedTime := t
  keyW := false
  keyA := false
  keyS := false
  keyD := false
  keySpace := false
  mouse1 := false
  mouse2 := false
  cameraPosition := ⟨0, 10, 10⟩
  currentLevel := openLevel
  rand := 0
  normalize := fun v => v
  facing := fun _ => ⟨-1, 0, 0⟩
  cursorYaw := fun _ => 0

/-- A frame at clock value `t` with the space key pressed. -/
def jumpFrame (t : ℚ) : Game :=
  { idleFrame t with keySpace := true }

/-- A level in which every position is out of bounds; no obstacles. -/
def voidLevel : Level :=
  { openLevel with outOfBounds := fun _ => true }

/-- A frame at clock value `t` over `voidLevel` with the space key and both
mouse buttons pressed. -/
def busyFrame (t : ℚ) : Game :=
  { idleFrame t with keySpace := true, mouse1 := true, mouse2 := true, currentLevel := voidLevel }

/-- A player as the constructor leaves it (two alive models, five death
models, speed 10, fire cooldown 0.6, model delay 0.5) with three hit points. -/
def newPlayer : Player where
  charModels := [⟨⟨8, 8, 8⟩⟩, ⟨⟨8, 8, 8⟩⟩]
  deathModels := [⟨⟨8, 8, 8⟩⟩, ⟨⟨8, 8, 8⟩⟩, ⟨⟨8, 8, 8⟩⟩, ⟨⟨8, 8, 8⟩⟩, ⟨⟨8, 8, 8⟩⟩]
  modelIndex := 0
  modelUpdateDelay := 1 / 2
  lastModelUpdate := 0
  pos := ⟨0, 0, 0⟩
  rotate := ⟨0, 0, 0⟩
  scale := 1
  hp := 3
  state := CharState.ALIVE
  tintColor := ⟨1, 1, 1⟩
  tintDuration := 1
  lastDamaged := 0
  poweredUp := false
  powerUpDuration := 5
  lastPowerUpTime := 0
  speed := 10
  verticalVelocity := -(1 / 10)
  grounded := true
  dashDirection := ⟨0, 0, 0⟩
  dashVelocity := 3
  dashCooldown := 1
  lastDashTime := 0
  bullets := []
  bulletSpeed := 23
  bulletScale := 1 / 2
  fireCooldown := 3 / 5
  lastFireTime := 0
  audio := []

/-- The sample player in the middle of a dash with direction `d`. -/
def dashingPlayer (d : Vec3) : Player :=
  { newPlayer with dashDirection := d }

/-- The sample player two frames into its death animation: DYING, hp 0,
`modelIndex` 2 (a valid index into the five `deathModels`). -/
def dyingPlayer : Player :=
  { newPlayer with state := CharState.DYING, hp := 0, modelIndex := 2, modelUpdateDelay := 1 / 5 }

/-! ## Damage: `takeDamage` -/

/-- C1: if the player is powered up, or the clock is within `tintDuration` of
`lastDamaged`, or the state is not ALIVE, `takeDamage` returns the player
unchanged (every field, the audio log included); and a second call within
`tintDuration` of a call that took effect changes nothing. -/
theorem takeDamage_noop (g g2 : Game) (p : Player) :
    ((p.poweredUp = true ∨ g.elapsedTime - p.lastDamaged ≤ p.tintDuration ∨
        p.state ≠ CharState.ALIVE) → takeDamage g p = p) ∧
    (p.poweredUp = false → p.tintDuration < g.elapsedTime - p.lastDamaged →
      p.state = CharState.ALIVE → g2.elapsedTime - g.elapsedTime ≤ p.tintDuration →
      takeDamage g2 (takeDamage g p) = takeDamage g p) := by
  constructor
  · rintro (h | h | h)
    · simp [takeDamage, h]
    · simp [takeDamage, h]
    · simp [takeDamage, h]
  · intro hp ht hs h2
    have ht' : ¬ g.elapsedTime - p.lastDamaged ≤ p.tintDuration := not_le.mpr ht
    by_cases h0 : p.hp - 1 = 0
    · simp [takeDamage, hp, ht', hs, h0]
    · simp [takeDamage, hp, ht', hs, h0, h2]

/-- Witness of C1 on the sample player: a call at clock 1/2 (inside the tint
window) does nothing, and after the effective call at clock 2 the call at
clock 3 does nothing. -/
theorem takeDamage_noop_witness :
    takeDamage (idleFrame (1 / 2)) newPlayer = newPlayer ∧
    takeDamage (idleFrame 3) (takeDamage (idleFrame 2) newPlayer) =
      takeDamage (idleFrame 2) newPlayer :=
  ⟨(takeDamage_noop (idleFrame (1 / 2)) (idleFrame 3) newPlayer).1
      (Or.inr (Or.inl (by norm_num [idleFrame, newPlayer]))),
   (takeDamage_noop (idleFrame 2) (idleFrame 3) newPlayer).2 rfl
      (by norm_num [idleFrame, newPlayer]) rfl (by norm_num [idleFrame, newPlayer])⟩

/-- C2: for a player that is ALIVE, not powered up and past the tint window,
`takeDamage` lowers hp by exactly one, sets the tint to red, records the
clock in `lastDamaged` and plays the damage sound; when the new hp is 0 the
state becomes DYING, `modelIndex` is 0, `modelUpdateDelay` is 0.2 and the
death sound follows; otherwise state, `modelIndex` and `modelUpdateDelay` are
unchanged and nothing but the damage sound is played; every other field is
unchanged in both cases. -/
theorem takeDamage_effect (g : Game) (p : Player)
    (hpow : p.poweredUp = false) (ht : p.tintDuration < g.elapsedTime - p.lastDamaged)
    (hs : p.state = CharState.ALIVE) :
    (takeDamage g p).hp = p.hp - 1 ∧
    (takeDamage g p).tintColor = ⟨1, 0, 0⟩ ∧
    (takeDamage g p).lastDamaged = g.elapsedTime ∧
    ((takeDamage g p).state = CharState.DYING ↔ p.hp - 1 = 0) ∧
    (p.hp - 1 = 0 →
      takeDamage g p =
        { p with
          hp := 0
          tintColor := ⟨1, 0, 0⟩
          lastDamaged := g.elapsedTime
          audio := p.audio ++ [Clip.damageAudio, Clip.deathAudio]
          state := CharState.DYING
          modelIndex := 0
          modelUpdateDelay := 1 / 5 }) ∧
    (p.hp - 1 ≠ 0 →
      takeDamage g p =
        { p with
          hp := p.hp - 1
          tintColor := ⟨1, 0, 0⟩
          lastDamaged := g.elapsedTime
          audio := p.audio ++ [Clip.damageAudio] }) := by
  have ht' : ¬ g.elapsedTime - p.lastDamaged ≤ p.tintDuration := not_le.mpr ht
  by_cases h0 : p.hp - 1 = 0
  · simp [takeDamage, hpow, ht', hs, h0]
  · simp [takeDamage, hpow, ht', hs, h0]

/-- Witness of C2: the sample player (hp 3) hit at clock 2 keeps state ALIVE
with hp 2. -/
theorem takeDamage_effect_witness :
    (takeDamage (idleFrame 2) newPlayer).hp = newPlayer.hp - 1 ∧
    (takeDamage (idleFrame 2) newPlayer).tintColor = ⟨1, 0, 0⟩ ∧
    (takeDamage (idleFrame 2) newPlayer).lastDamaged = 2 :=
  have h := takeDamage_effect (idleFrame 2) newPlayer rfl
    (by norm_num [idleFrame, newPlayer]) rfl
  ⟨h.1, h.2.1, h.2.2.1⟩


/-! ## Frame lemmas -/

/-- The motion part of `movePlayer` writes only `pos` and `dashDirection`. -/
theorem movePlayerMotion_frame (g : Game) (dt : ℚ) (p : Player) :
    movePlayerMotion g dt p =
      { p with
        pos := (movePlayerMotion g dt p).pos
        dashDirection := (movePlayerMotion g dt p).dashDirection } := by
  unfold movePlayerMotion
  dsimp only
  split_ifs <;> rfl

/-- `movePlayer` writes only `pos`, `dashDirection` and `state`. -/
theorem movePlayer_frame (g : Game) (dt : ℚ) (p : Player) :
    movePlayer g dt p =
      { p with
        pos := (movePlayer g dt p).pos
        dashDirection := (movePlayer g dt p).dashDirection
        state := (movePlayer g dt p).state } := by
  unfold movePlayer
  dsimp only
  split_ifs
  · rw [movePlayerMotion_frame]
  · rw [movePlayerMotion_frame]

/-- `movePlayer` leaves the state as it is or makes it DEAD. -/
theorem movePlayer_state (g : Game) (dt : ℚ) (p : Player) :
    (movePlayer g dt p).state = p.state ∨ (movePlayer g dt p).state = CharState.DEAD := by
  unfold movePlayer
  dsimp only
  split_ifs
  · right; rfl
  · left; rw [movePlayerMotion_frame]

/-- The jump conditional writes only `verticalVelocity`, `grounded` and the
audio log. -/
theorem jumpStep_frame (g : Game) (p : Player) :
    jumpStep g p =
      { p with
        verticalVelocity := (jumpStep g p).verticalVelocity
        grounded := (jumpStep g p).grounded
        audio := (jumpStep g p).audio } := by
  unfold jumpStep
  split_ifs <;> rfl

/-- The ground probe writes only `pos` and `grounded`. -/
theorem groundStep_frame (g : Game) (dt : ℚ) (p : Player) :
    groundStep g dt p =
      { p with
        pos := (groundStep g dt p).pos
        grounded := (groundStep g dt p).grounded } := by
  unfold groundStep
  dsimp only
  split_ifs <;> rfl

/-- The airborne step writes only `pos`, `verticalVelocity`, `grounded` and
the audio log. -/
theorem airStep_frame (g : Game) (dt : ℚ) (p : Player) :
    airStep g dt p =
      { p with
        pos := (airStep g dt p).pos
        verticalVelocity := (airStep g dt p).verticalVelocity
        grounded := (airStep g dt p).grounded
        audio := (airStep g dt p).audio } := by
  unfold airStep
  dsimp only
  split_ifs <;> rfl

/-- `moveVertical` writes only `pos`, `verticalVelocity`, `grounded` and the
audio log. -/
theorem moveVertical_frame (g : Game) (dt : ℚ) (p : Player) :
    moveVertical g dt p =
      { p with
        pos := (moveVertical g dt p).pos
        verticalVelocity := (moveVertical g dt p).verticalVelocity
        grounded := (moveVertical g dt p).grounded
        audio := (moveVertical g dt p).audio } := by
  unfold moveVertical
  rw [airStep_frame, groundStep_frame, jumpStep_frame]


/-! ## Hit points and the state machine -/

/-- What `takeDamage` does to hp and state: nothing, or (from ALIVE) one hit
point less, with the state DYING exactly when the new hp is 0. -/
theorem takeDamage_cases (g : Game) (p : Player) :
    ((takeDamage g p).hp = p.hp ∧ (takeDamage g p).state = p.state) ∨
    (p.state = CharState.ALIVE ∧ (takeDamage g p).hp = p.hp - 1 ∧
      ((p.hp - 1 = 0 ∧ (takeDamage g p).state = CharState.DYING) ∨
       (p.hp - 1 ≠ 0 ∧ (takeDamage g p).state = CharState.ALIVE))) := by
  unfold takeDamage
  dsimp only
  split_ifs with h1 h2 h3 h4
  · left; exact ⟨rfl, rfl⟩
  · left; exact ⟨rfl, rfl⟩
  · left; exact ⟨rfl, rfl⟩
  · right; exact ⟨not_not.mp h3, rfl, Or.inl ⟨h4, rfl⟩⟩
  · right; exact ⟨not_not.mp h3, rfl, Or.inr ⟨h4, not_not.mp h3⟩⟩

/-- The tint and power-up expiry leaves hp and state alone. -/
theorem updateTint_hp_state (g : Game) (p : Player) :
    (updateTint g p).hp = p.hp ∧ (updateTint g p).state = p.state := by
  unfold updateTint
  dsimp only
  split_ifs <;> exact ⟨rfl, rfl⟩

/-- What one operation does to hp and state: both unchanged, or state set to
DEAD with hp unchanged, or an effective `takeDamage` from ALIVE. -/
theorem apply_cases (op : PlayerOp) (p : Player) :
    ((op.apply p).hp = p.hp ∧
      ((op.apply p).state = p.state ∨ (op.apply p).state = CharState.DEAD)) ∨
    ((∃ g, op = PlayerOp.takeDamage g) ∧ p.state = CharState.ALIVE ∧
      (op.apply p).hp = p.hp - 1 ∧
      ((p.hp - 1 = 0 ∧ (op.apply p).state = CharState.DYING) ∨
       (p.hp - 1 ≠ 0 ∧ (op.apply p).state = CharState.ALIVE))) := by
  cases op with
  | takeDamage g =>
    rcases takeDamage_cases g p with h | h
    · left; exact ⟨h.1, Or.inl h.2⟩
    · right; exact ⟨⟨g, rfl⟩, h⟩
  | powerUp g => left; exact ⟨rfl, Or.inl rfl⟩
  | updateTint g =>
    left; exact ⟨(updateTint_hp_state g p).1, Or.inl (updateTint_hp_state g p).2⟩
  | movePlayer g dt =>
    left
    refine ⟨?_, movePlayer_state g dt p⟩
    show (movePlayer g dt p).hp = p.hp
    rw [movePlayer_frame]

/-- One operation preserves: hp is not negative, and hp is at least 1 while
the state is ALIVE. -/
theorem apply_inv (op : PlayerOp) (p : Player) (h0 : 0 ≤ p.hp)
    (h1 : p.state = CharState.ALIVE → 1 ≤ p.hp) :
    0 ≤ (op.apply p).hp ∧ ((op.apply p).state = CharState.ALIVE → 1 ≤ (op.apply p).hp) := by
  rcases apply_cases op p with ⟨hh, hs | hs⟩ | ⟨_, hs, hh, ⟨hz, hd⟩ | ⟨hz, _⟩⟩
  · rw [hh, hs]; exact ⟨h0, h1⟩
  · rw [hh, hs]; exact ⟨h0, fun h => by cases h⟩
  · rw [hh, hd]; exact ⟨by omega, fun h => by cases h⟩
  · have := h1 hs
    rw [hh]; exact ⟨by omega, fun _ => by omega⟩

/-- No operation brings a player back to ALIVE. -/
theorem apply_not_alive (op : PlayerOp) (p : Player) (h : p.state ≠ CharState.ALIVE) :
    (op.apply p).state ≠ CharState.ALIVE := by
  rcases apply_cases op p with ⟨_, hs | hs⟩ | ⟨_, hs, _⟩
  · rw [hs]; exact h
  · rw [hs]; decide
  · exact absurd hs h

/-- The invariant holds after any sequence of operations. -/
theorem run_inv (ops : List PlayerOp) (p : Player) (h0 : 0 ≤ p.hp)
    (h1 : p.state = CharState.ALIVE → 1 ≤ p.hp) :
    0 ≤ (run ops p).hp ∧ ((run ops p).state = CharState.ALIVE → 1 ≤ (run ops p).hp) := by
  induction ops generalizing p with
  | nil => exact ⟨h0, h1⟩
  | cons op ops ih =>
    have h := apply_inv op p h0 h1
    exact ih (op.apply p) h.1 h.2

/-- Running a concatenation is running the parts in turn. -/
theorem run_append (pre post : List PlayerOp) (p : Player) :
    run (pre ++ post) p = run post (run pre p) := by
  simp [run, List.foldl_append]

/-- From a state other than ALIVE no step enters DYING from ALIVE. -/
theorem dyingTransitions_not_alive (ops : List PlayerOp) (p : Player)
    (h : p.state ≠ CharState.ALIVE) : dyingTransitions ops p = 0 := by
  induction ops generalizing p with
  | nil => rfl
  | cons op ops ih =>
    simp [dyingTransitions, h, ih (op.apply p) (apply_not_alive op p h)]

/-- The state goes from ALIVE to DYING on at most one step of a sequence. -/
theorem dyingTransitions_le_one (ops : List PlayerOp) (p : Player) :
    dyingTransitions ops p ≤ 1 := by
  induction ops generalizing p with
  | nil => simp [dyingTransitions]
  | cons op ops ih =>
    unfold dyingTransitions
    split_ifs with h
    · have hd : (op.apply p).state ≠ CharState.ALIVE := by rw [h.2]; decide
      rw [dyingTransitions_not_alive ops _ hd]
    · have := ih (op.apply p)
      omega


/-- C3: from a player with hp at least 1 (ALIVE in particular), after every
finite sequence of `takeDamage`, `powerUp`, tint / power-up expiry and
`movePlayer` operations (at any clock values, non-decreasing ones included)
hp is not negative and hp = 0 implies the state is not ALIVE; the step ALIVE
to DYING occurs at most once, and it occurs exactly at a `takeDamage` call
that brings hp from 1 to 0. -/
theorem hp_state_machine (p : Player) (hhp : 1 ≤ p.hp) (ops : List PlayerOp) :
    0 ≤ (run ops p).hp ∧
    ((run ops p).hp = 0 → (run ops p).state ≠ CharState.ALIVE) ∧
    dyingTransitions ops p ≤ 1 ∧
    (∀ pre op post, ops = pre ++ op :: post →
      (run pre p).state = CharState.ALIVE → (op.apply (run pre p)).state = CharState.DYING →
      (∃ g, op = PlayerOp.takeDamage g) ∧ (run pre p).hp = 1 ∧ (op.apply (run pre p)).hp = 0) ∧
    (∀ pre g post, ops = pre ++ PlayerOp.takeDamage g :: post →
      (run pre p).hp ≠ 0 → (takeDamage g (run pre p)).hp = 0 →
      (run pre p).state = CharState.ALIVE ∧
        (takeDamage g (run pre p)).state = CharState.DYING) := by
  have inv := fun l => run_inv l p (by omega) (fun _ => hhp)
  refine ⟨(inv ops).1, ?_, dyingTransitions_le_one ops p, ?_, ?_⟩
  · intro hz ha
    have := (inv ops).2 ha
    omega
  · intro pre op post _ ha hd
    rcases apply_cases op (run pre p) with ⟨_, h | h⟩ | ⟨hg, _, hh, ⟨hz, _⟩ | ⟨_, h⟩⟩
    · rw [h, ha] at hd; cases hd
    · rw [h] at hd; cases hd
    · exact ⟨hg, by omega, by omega⟩
    · rw [h] at hd; cases hd
  · intro pre g post _ hne hz
    rcases takeDamage_cases g (run pre p) with h | ⟨ha, hh, ⟨_, hd⟩ | ⟨hn, _⟩⟩
    · rw [h.1] at hz; exact absurd hz hne
    · exact ⟨ha, hd⟩
    · rw [hh] at hz; exact absurd hz hn

/-- Witness of C3: three effective hits on the sample player (hp 3), with an
expiry check and a power-up in between. -/
theorem hp_state_machine_witness :
    0 ≤ (run [PlayerOp.takeDamage (idleFrame 2), PlayerOp.updateTint (idleFrame 3),
        PlayerOp.takeDamage (idleFrame 4), PlayerOp.takeDamage (idleFrame 6),
        PlayerOp.powerUp (idleFrame 7)] newPlayer).hp ∧
    dyingTransitions [PlayerOp.takeDamage (idleFrame 2), PlayerOp.updateTint (idleFrame 3),
        PlayerOp.takeDamage (idleFrame 4), PlayerOp.takeDamage (idleFrame 6),
        PlayerOp.powerUp (idleFrame 7)] newPlayer ≤ 1 :=
  have h := hp_state_machine newPlayer (by decide)
    [PlayerOp.takeDamage (idleFrame 2), PlayerOp.updateTint (idleFrame 3),
      PlayerOp.takeDamage (idleFrame 4), PlayerOp.takeDamage (idleFrame 6),
      PlayerOp.powerUp (idleFrame 7)]
  ⟨h.1, h.2.2.1⟩

/-- The sample player (hp 3) hit at clocks 2, 4 and 6, each past the tint
window of the previous hit: it ends DYING with hp 0, after three damage sounds
and one death sound. -/
theorem three_hits_scenario :
    (run [PlayerOp.takeDamage (idleFrame 2), PlayerOp.takeDamage (idleFrame 4),
        PlayerOp.takeDamage (idleFrame 6)] newPlayer).state = CharState.DYING ∧
    (run [PlayerOp.takeDamage (idleFrame 2), PlayerOp.takeDamage (idleFrame 4),
        PlayerOp.takeDamage (idleFrame 6)] newPlayer).hp = 0 ∧
    (run [PlayerOp.takeDamage (idleFrame 2), PlayerOp.takeDamage (idleFrame 4),
        PlayerOp.takeDamage (idleFrame 6)] newPlayer).audio =
      [Clip.damageAudio, Clip.damageAudio, Clip.damageAudio, Clip.deathAudio] ∧
    dyingTransitions [PlayerOp.takeDamage (idleFrame 2), PlayerOp.takeDamage (idleFrame 4),
        PlayerOp.takeDamage (idleFrame 6)] newPlayer = 1 := by
  have hne : ¬ (CharState.ALIVE = CharState.DYING) := by decide
  norm_num [run, dyingTransitions, PlayerOp.apply, takeDamage, idleFrame, newPlayer, hne]

/-! ## Power-up and its expiry -/

/-- After `k` successive calls of `powerUp` the fire cooldown is the initial
one divided by `2 ^ k`. -/
theorem powerUps_fireCooldown (gs : List Game) (p : Player) :
    (powerUps gs p).fireCooldown = p.fireCooldown / 2 ^ gs.length := by
  induction gs generalizing p with
  | nil => simp [powerUps]
  | cons g gs ih =>
    have h : powerUps (g :: gs) p = powerUps gs (powerUp g p) := rfl
    rw [h, ih]
    simp only [powerUp, List.length_cons, pow_succ]
    rw [div_div, mul_comm]

/-- A powered-up player stays powered up under further calls of `powerUp`. -/
theorem powerUps_poweredUp_of (gs : List Game) (p : Player) (h : p.poweredUp = true) :
    (powerUps gs p).poweredUp = true := by
  induction gs generalizing p with
  | nil => exact h
  | cons g gs ih => exact ih (powerUp g p) rfl

/-- After at least one call of `powerUp` the player is powered up. -/
theorem powerUps_poweredUp (gs : List Game) (p : Player) (h : gs ≠ []) :
    (powerUps gs p).poweredUp = true := by
  cases gs with
  | nil => exact absurd rfl h
  | cons g gs => exact powerUps_poweredUp_of gs (powerUp g p) rfl

/-- The expiry branch of `updateState`: a powered-up player whose power-up
duration has elapsed gets a white tint, loses the flag and has its fire
cooldown doubled. -/
theorem updateTint_expiry (g : Game) (p : Player) (h : p.poweredUp = true)
    (ht : g.elapsedTime - p.lastPowerUpTime ≥ p.powerUpDuration) :
    updateTint g p =
      { p with tintColor := ⟨1, 1, 1⟩, poweredUp := false, fireCooldown := p.fireCooldown * 2 } := by
  simp [updateTint, h, ht]

/-- The first part of `updateState` keeps the power-up fields when each of
the helpers it calls does. -/
theorem updateCollaborators_keeps (c : Character) (g : Game) (dt : ℚ)
    (hnext : KeepsPowerUp c.nextModel) (hmove : KeepsPowerUp (c.moveBullets dt))
    (hpb : KeepsPowerUp g.currentLevel.checkPlayerBulletCollision)
    (hbe : KeepsPowerUp g.currentLevel.checkBulletEnemyCollisions)
    (hpp : KeepsPowerUp g.currentLevel.checkPlayerPickupCollision) :
    KeepsPowerUp (updateCollaborators c g dt) := by
  intro q
  have hfirst : KeepsPowerUp (fun r : Player =>
      if g.elapsedTime - r.lastModelUpdate ≥ r.modelUpdateDelay then c.nextModel r else r) := by
    intro r
    dsimp only
    split_ifs
    · exact hnext r
    · exact ⟨rfl, rfl, rfl, rfl⟩
  unfold updateCollaborators
  dsimp only
  obtain ⟨a1, a2, a3, a4⟩ := hfirst q
  dsimp only at a1 a2 a3 a4
  obtain ⟨b1, b2, b3, b4⟩ := hmove
    (if g.elapsedTime - q.lastModelUpdate ≥ q.modelUpdateDelay then c.nextModel q else q)
  obtain ⟨c1, c2, c3, c4⟩ := hpb (c.moveBullets dt
    (if g.elapsedTime - q.lastModelUpdate ≥ q.modelUpdateDelay then c.nextModel q else q))
  obtain ⟨d1, d2, d3, d4⟩ := hbe (g.currentLevel.checkPlayerBulletCollision (c.moveBullets dt
    (if g.elapsedTime - q.lastModelUpdate ≥ q.modelUpdateDelay then c.nextModel q else q)))
  obtain ⟨e1, e2, e3, e4⟩ := hpp (g.currentLevel.checkBulletEnemyCollisions
    (g.currentLevel.checkPlayerBulletCollision (c.moveBullets dt
    (if g.elapsedTime - q.lastModelUpdate ≥ q.modelUpdateDelay then c.nextModel q else q))))
  exact ⟨by rw [e1, d1, c1, b1, a1], by rw [e2, d2, c2, b2, a2], by rw [e3, d3, c3, b3, a3],
    by rw [e4, d4, c4, b4, a4]⟩


/-- C4: `k ≥ 1` successive calls of `powerUp` followed by one `updateState`
at a clock with the power-up duration elapsed (the helpers called by
`updateState` leaving the power-up fields alone) end with `poweredUp` false,
a white tint and a fire cooldown of twice its powered-up value, which is
`c / 2 ^ (k - 1)` for the initial cooldown `c`: `c` itself when `k = 1`, and
strictly less than `c` when `k ≥ 2` and `c > 0`. -/
theorem powerUp_expiry (c : Character) (g : Game) (dt : ℚ) (gs : List Game) (p : Player)
    (hk : gs ≠ [])
    (hnext : KeepsPowerUp c.nextModel) (hmove : KeepsPowerUp (c.moveBullets dt))
    (hpb : KeepsPowerUp g.currentLevel.checkPlayerBulletCollision)
    (hbe : KeepsPowerUp g.currentLevel.checkBulletEnemyCollisions)
    (hpp : KeepsPowerUp g.currentLevel.checkPlayerPickupCollision)
    (hexp : g.elapsedTime - (powerUps gs p).lastPowerUpTime ≥ (powerUps gs p).powerUpDuration) :
    (updateState c g dt (powerUps gs p)).poweredUp = false ∧
    (updateState c g dt (powerUps gs p)).tintColor = ⟨1, 1, 1⟩ ∧
    (updateState c g dt (powerUps gs p)).fireCooldown = 2 * (powerUps gs p).fireCooldown ∧
    (updateState c g dt (powerUps gs p)).fireCooldown = p.fireCooldown / 2 ^ (gs.length - 1) ∧
    (gs.length = 1 → (updateState c g dt (powerUps gs p)).fireCooldown = p.fireCooldown) ∧
    (2 ≤ gs.length → 0 < p.fireCooldown →
      (updateState c g dt (powerUps gs p)).fireCooldown < p.fireCooldown) := by
  obtain ⟨k1, k2, k3, k4⟩ := updateCollaborators_keeps c g dt hnext hmove hpb hbe hpp (powerUps gs p)
  have hp1 : (updateCollaborators c g dt (powerUps gs p)).poweredUp = true := by
    rw [k1]; exact powerUps_poweredUp gs p hk
  have ht : g.elapsedTime - (updateCollaborators c g dt (powerUps gs p)).lastPowerUpTime ≥
      (updateCollaborators c g dt (powerUps gs p)).powerUpDuration := by
    rw [k2, k3]; exact hexp
  have hfc : (updateState c g dt (powerUps gs p)).fireCooldown =
      2 * (powerUps gs p).fireCooldown := by
    unfold updateState
    rw [updateTint_expiry g _ hp1 ht]
    show (updateCollaborators c g dt (powerUps gs p)).fireCooldown * 2 = _
    rw [k4, mul_comm]
  have hlen : 1 ≤ gs.length := by
    cases gs with
    | nil => exact absurd rfl hk
    | cons a l => simp
  have hval : (updateState c g dt (powerUps gs p)).fireCooldown =
      p.fireCooldown / 2 ^ (gs.length - 1) := by
    rw [hfc, powerUps_fireCooldown]
    obtain ⟨n, hn⟩ : ∃ n, gs.length = n + 1 := ⟨gs.length - 1, by omega⟩
    rw [hn, Nat.add_sub_cancel, pow_succ]
    field_simp
    ring
  refine ⟨?_, ?_, hfc, hval, ?_, ?_⟩
  · unfold updateState
    rw [updateTint_expiry g _ hp1 ht]
  · unfold updateState
    rw [updateTint_expiry g _ hp1 ht]
  · intro h1
    rw [hval, h1]
    simp
  · intro h2 hc
    rw [hval]
    obtain ⟨n, hn⟩ : ∃ n, gs.length - 1 = n + 1 := ⟨gs.length - 2, by omega⟩
    rw [hn]
    have h2n : (1 : ℚ) < 2 ^ (n + 1) := one_lt_pow₀ (by norm_num) (by omega)
    exact div_lt_self hc h2n

/-- Witness of C4: two power-ups of the sample player (cooldown 3/5) at clocks
1 and 2, expiry checked at clock 8: the cooldown ends at 3/10. -/
theorem powerUp_expiry_witness :
    (updateState idleCharacter (idleFrame 8) (1 / 60)
      (powerUps [idleFrame 1, idleFrame 2] newPlayer)).poweredUp = false ∧
    (updateState idleCharacter (idleFrame 8) (1 / 60)
      (powerUps [idleFrame 1, idleFrame 2] newPlayer)).fireCooldown =
        newPlayer.fireCooldown / 2 ^ ([idleFrame 1, idleFrame 2].length - 1) :=
  have keep : KeepsPowerUp (fun q : Player => q) := fun _ => ⟨rfl, rfl, rfl, rfl⟩
  have h := powerUp_expiry idleCharacter (idleFrame 8) (1 / 60) [idleFrame 1, idleFrame 2]
    newPlayer (by simp) keep keep keep keep keep
    (by norm_num [powerUps, powerUp, idleFrame, newPlayer])
  ⟨h.1, h.2.2.2.1⟩


/-! ## Input processing -/

/-- The two movement steps of `processInput` leave the firing, dashing,
model and vitality fields alone. -/
theorem moveVertical_movePlayer_keeps (g : Game) (dt : ℚ) (p : Player) :
    (moveVertical g dt (movePlayer g dt p)).bullets = p.bullets ∧
    (moveVertical g dt (movePlayer g dt p)).lastFireTime = p.lastFireTime ∧
    (moveVertical g dt (movePlayer g dt p)).fireCooldown = p.fireCooldown ∧
    (moveVertical g dt (movePlayer g dt p)).modelIndex = p.modelIndex ∧
    (moveVertical g dt (movePlayer g dt p)).charModels = p.charModels ∧
    (moveVertical g dt (movePlayer g dt p)).deathModels = p.deathModels ∧
    (moveVertical g dt (movePlayer g dt p)).lastDashTime = p.lastDashTime ∧
    (moveVertical g dt (movePlayer g dt p)).dashCooldown = p.dashCooldown ∧
    (moveVertical g dt (movePlayer g dt p)).hp = p.hp ∧
    (moveVertical g dt (movePlayer g dt p)).state = (movePlayer g dt p).state := by
  rw [moveVertical_frame, movePlayer_frame]
  exact ⟨rfl, rfl, rfl, rfl, rfl, rfl, rfl, rfl, rfl, rfl⟩

/-- The two movement steps of `processInput` leave the yaw, the scale and the
bullet scale alone. -/
theorem moveVertical_movePlayer_keeps_aim (g : Game) (dt : ℚ) (p : Player) :
    (moveVertical g dt (movePlayer g dt p)).rotate = p.rotate ∧
    (moveVertical g dt (movePlayer g dt p)).scale = p.scale ∧
    (moveVertical g dt (movePlayer g dt p)).bulletScale = p.bulletScale := by
  rw [moveVertical_frame, movePlayer_frame]
  exact ⟨rfl, rfl, rfl⟩

/-- An index inside a list has an entry. -/
theorem lookup_some (l : List VoxelModel) (i : Nat) (h : i < l.length) :
    ∃ m, l[i]? = some m :=
  ⟨l[i], List.getElem?_eq_getElem h⟩

/-- When the lookup `charModels[modelIndex]` gives `cm`, `rotatePlayer`
succeeds and writes only the yaw, the cursor angle for the mid-point of `cm`. -/
theorem rotatePlayer_some (g : Game) (dt : ℚ) (p : Player) (cm : VoxelModel)
    (h : p.charModels[p.modelIndex]? = some cm) :
    rotatePlayer g dt p =
      some { p with rotate := { p.rotate with y := g.cursorYaw (midPos p cm) } } := by
  unfold rotatePlayer
  rw [h]

/-- When the lookup selected by the state gives `fm`, `fire` succeeds, appends
the bullet spawned at the mid-point of `fm` and plays the shot sound. -/
theorem fire_some (g : Game) (p : Player) (fm : VoxelModel)
    (h : (if p.state = CharState.ALIVE then p.charModels[p.modelIndex]?
      else p.deathModels[p.modelIndex]?) = some fm) :
    fire g p =
      some { p with
        bullets := p.bullets ++ [⟨midPos p fm, g.facing p.rotate.y,
          bulletColors.getD (g.rand % bulletColors.length) Vec3.zero, p.rotate.y,
          p.bulletScale, 10⟩]
        audio := p.audio ++ [Clip.shootAudio] } := by
  unfold fire
  dsimp only
  rw [h]

/-- `moveVertical` leaves the horizontal position alone. -/
theorem moveVertical_pos_xz (g : Game) (dt : ℚ) (p : Player) :
    (moveVertical g dt p).pos.x = p.pos.x ∧ (moveVertical g dt p).pos.z = p.pos.z := by
  have hj : (jumpStep g p).pos = p.pos := by rw [jumpStep_frame]
  have hg : ∀ q, (groundStep g dt q).pos.x = q.pos.x ∧ (groundStep g dt q).pos.z = q.pos.z := by
    intro q
    unfold groundStep
    dsimp only
    split_ifs <;> exact ⟨rfl, rfl⟩
  have ha : ∀ q, (airStep g dt q).pos.x = q.pos.x ∧ (airStep g dt q).pos.z = q.pos.z := by
    intro q
    unfold airStep
    dsimp only
    split_ifs <;> exact ⟨rfl, rfl⟩
  unfold moveVertical
  rw [(ha _).1, (ha _).2, (hg _).1, (hg _).2, hj]
  exact ⟨rfl, rfl⟩

/-- The shape of a `processInput` frame when the lookup of `rotatePlayer` gives
`cm` and the lookup of `fire` (selected by the state after `movePlayer`) gives
`fm`: the frame completes; after `movePlayer` and `moveVertical` the yaw is
written, then the fire block and the dash block run on their cooldown gates. -/
theorem processInput_shape (g : Game) (dt : ℚ) (p : Player) (cm fm : VoxelModel)
    (hcm : p.charModels[p.modelIndex]? = some cm)
    (hfm : (if (movePlayer g dt p).state = CharState.ALIVE then p.charModels[p.modelIndex]?
      else p.deathModels[p.modelIndex]?) = some fm) :
    processInput g dt p = some (dashInput g
      (if g.mouse1 = true ∧ g.elapsedTime - p.lastFireTime ≥ p.fireCooldown then
        { moveVertical g dt (movePlayer g dt p) with
          rotate := { (moveVertical g dt (movePlayer g dt p)).rotate with
            y := g.cursorYaw (midPos (moveVertical g dt (movePlayer g dt p)) cm) }
          lastFireTime := g.elapsedTime
          bullets := p.bullets ++ [⟨midPos (moveVertical g dt (movePlayer g dt p)) fm,
            g.facing (g.cursorYaw (midPos (moveVertical g dt (movePlayer g dt p)) cm)),
            bulletColors.getD (g.rand % bulletColors.length) Vec3.zero,
            g.cursorYaw (midPos (moveVertical g dt (movePlayer g dt p)) cm),
            p.bulletScale, 10⟩]
          audio := (moveVertical g dt (movePlayer g dt p)).audio ++ [Clip.shootAudio] }
      else
        { moveVertical g dt (movePlayer g dt p) with
          rotate := { (moveVertical g dt (movePlayer g dt p)).rotate with
            y := g.cursorYaw (midPos (moveVertical g dt (movePlayer g dt p)) cm) } })) := by
  obtain ⟨k1, k2, k3, k4, k5, k6, -, -, -, k10⟩ := moveVertical_movePlayer_keeps g dt p
  obtain ⟨-, -, kb⟩ := moveVertical_movePlayer_keeps_aim g dt p
  rw [← k10] at hfm
  unfold processInput
  dsimp only
  generalize moveVertical g dt (movePlayer g dt p) = q at k1 k2 k3 k4 k5 k6 kb hfm ⊢
  rw [← k4, ← k5] at hcm
  rw [← k4, ← k5, ← k6] at hfm
  rw [rotatePlayer_some g dt q cm hcm]
  dsimp only
  by_cases hgate : g.mouse1 = true ∧ g.elapsedTime - p.lastFireTime ≥ p.fireCooldown
  · have hgate2 : g.mouse1 = true ∧ g.elapsedTime - q.lastFireTime ≥ q.fireCooldown := by
      rw [k2, k3]; exact hgate
    have hb := fire_some g
      { q with
        rotate := { q.rotate with y := g.cursorYaw (midPos q cm) }
        lastFireTime := g.elapsedTime } fm hfm
    unfold fireInput
    rw [if_pos hgate2, hb, if_pos hgate]
    dsimp only
    rw [k1, kb]
    rfl
  · have hgate2 : ¬ (g.mouse1 = true ∧ g.elapsedTime - q.lastFireTime ≥ q.fireCooldown) := by
      rw [k2, k3]; exact hgate
    unfold fireInput
    rw [if_neg hgate2, if_neg hgate]

/-- A player whose `modelIndex` is inside both model arrays has the lookups
of `rotatePlayer` and of `fire` in range, whatever the state at `fire`. -/
theorem lookups_some (g : Game) (dt : ℚ) (p : Player)
    (hc : p.modelIndex < p.charModels.length) (hd : p.modelIndex < p.deathModels.length) :
    ∃ cm fm, p.charModels[p.modelIndex]? = some cm ∧
      (if (movePlayer g dt p).state = CharState.ALIVE then p.charModels[p.modelIndex]?
        else p.deathModels[p.modelIndex]?) = some fm := by
  obtain ⟨cm, hcm⟩ := lookup_some p.charModels p.modelIndex hc
  obtain ⟨dm, hdm⟩ := lookup_some p.deathModels p.modelIndex hd
  by_cases hs : (movePlayer g dt p).state = CharState.ALIVE
  · exact ⟨cm, cm, hcm, by rw [if_pos hs]; exact hcm⟩
  · exact ⟨cm, dm, hcm, by rw [if_neg hs]; exact hdm⟩

/-- C6 (evaluation at the failing input): a dash with the negative component
`(-1, 0, 0)` and `dt = 1/10`. One `movePlayer` step sets the x
component to 0; a decay toward zero by `2 * dt` that keeps the sign would
give `-4/5`. -/
theorem movePlayer_dash_negative :
    (dashingPlayer ⟨-1, 0, 0⟩).dashDirection ≠ ⟨0, 0, 0⟩ ∧
    (2 : ℚ) * (1 / 10) ≤ |(dashingPlayer ⟨-1, 0, 0⟩).dashDirection.x| ∧
    (movePlayer (idleFrame 1) (1 / 10) (dashingPlayer ⟨-1, 0, 0⟩)).dashDirection = ⟨0, 0, 0⟩ ∧
    |(movePlayer (idleFrame 1) (1 / 10) (dashingPlayer ⟨-1, 0, 0⟩)).dashDirection.x| ≠
      |(dashingPlayer ⟨-1, 0, 0⟩).dashDirection.x| - 2 * (1 / 10) := by
  have h : (movePlayer (idleFrame 1) (1 / 10) (dashingPlayer ⟨-1, 0, 0⟩)).dashDirection =
      ⟨0, 0, 0⟩ := by
    norm_num [movePlayer, movePlayerMotion, dashingPlayer, newPlayer, idleFrame, openLevel,
      dashDecay, keyMovement]
  refine ⟨?_, ?_, h, ?_⟩
  · norm_num [dashingPlayer, newPlayer]
  · norm_num [dashingPlayer, newPlayer]
  · rw [h]
    norm_num [dashingPlayer, newPlayer]

/-- On a component that is not negative the decay subtracts `2 * dt` when
the component is at least `2 * dt` and gives 0 otherwise. -/
theorem dashDecay_of_nonneg (dt d : ℚ) :
    (2 * dt ≤ d → dashDecay dt d = d - 2 * dt) ∧ (d < 2 * dt → dashDecay dt d = 0) := by
  unfold dashDecay
  constructor
  · intro h
    rw [if_neg (by linarith)]
  · intro h
    rw [if_pos (by linarith)]

/-- On a negative component the decay with `dt ≥ 0` gives 0 at once, whatever
the magnitude. -/
theorem dashDecay_of_neg (dt d : ℚ) (hdt : 0 ≤ dt) (hd : d < 0) : dashDecay dt d = 0 := by
  unfold dashDecay
  rw [if_pos (by linarith)]

/-- A decayed component is never negative. -/
theorem dashDecay_nonneg (dt d : ℚ) : 0 ≤ dashDecay dt d := by
  unfold dashDecay
  split_ifs with h
  · exact le_refl 0
  · exact not_lt.mp h

/-- For `dt ≥ 0` the decay does not increase the magnitude of a component. -/
theorem dashDecay_abs_le (dt d : ℚ) (hdt : 0 ≤ dt) : |dashDecay dt d| ≤ |d| := by
  unfold dashDecay
  split_ifs with h
  · simp
  · have h1 : 0 ≤ d - 2 * dt := not_lt.mp h
    rw [abs_of_nonneg h1, abs_of_nonneg (by linarith)]
    linarith

/-- A component of magnitude at most `2 * dt * (n + 1)` decays to one of
magnitude at most `2 * dt * n`. -/
theorem dashDecay_abs_bound (dt d : ℚ) (n : ℕ) (hdt : 0 ≤ dt)
    (h : |d| ≤ 2 * dt * ((n : ℚ) + 1)) : |dashDecay dt d| ≤ 2 * dt * n := by
  unfold dashDecay
  split_ifs with h0
  · simp only [abs_zero]
    positivity
  · have h1 : 0 ≤ d - 2 * dt := not_lt.mp h0
    rw [abs_of_nonneg h1]
    rw [abs_of_nonneg (by linarith)] at h
    linarith

/-- The dash direction after one `movePlayer` step: each axis decayed when
the vector is nonzero, the zero vector otherwise. -/
theorem movePlayer_dashDirection (g : Game) (dt : ℚ) (p : Player) :
    (movePlayer g dt p).dashDirection =
      if p.dashDirection ≠ ⟨0, 0, 0⟩ then
        ⟨dashDecay dt p.dashDirection.x, dashDecay dt p.dashDirection.y,
          dashDecay dt p.dashDirection.z⟩
      else ⟨0, 0, 0⟩ := by
  unfold movePlayer movePlayerMotion
  dsimp only
  split_ifs with h1 h2 h3 h4 h5 h6 <;> first | rfl | exact not_not.mp h1


/-- A vector whose largest component magnitude is at most 0 is the zero
vector. -/
theorem Vec3.eq_zero_of_maxAbs_le (v : Vec3) (h : v.maxAbs ≤ 0) : v = ⟨0, 0, 0⟩ := by
  obtain ⟨x, y, z⟩ := v
  simp only [Vec3.maxAbs, max_le_iff, abs_nonpos_iff] at h
  obtain ⟨hx, hy, hz⟩ := h
  rw [hx, hy, hz]

/-- After as many `movePlayer` steps as it takes `2 * dt` to cover the
largest component magnitude, the dash direction is the zero vector. -/
theorem movePlayerSteps_rest (dt : ℚ) (hdt : 0 ≤ dt) (gs : List Game) (p : Player)
    (h : p.dashDirection.maxAbs ≤ 2 * dt * (gs.length : ℚ)) :
    (movePlayerSteps gs dt p).dashDirection = ⟨0, 0, 0⟩ := by
  induction gs generalizing p with
  | nil =>
    simp only [List.length_nil, Nat.cast_zero, mul_zero] at h
    exact Vec3.eq_zero_of_maxAbs_le _ h
  | cons g gs ih =>
    have hstep : movePlayerSteps (g :: gs) dt p = movePlayerSteps gs dt (movePlayer g dt p) := rfl
    rw [hstep]
    apply ih
    rw [movePlayer_dashDirection]
    simp only [Vec3.maxAbs, max_le_iff, List.length_cons, Nat.cast_add, Nat.cast_one] at h
    obtain ⟨hx, hy, hz⟩ := h
    split_ifs with h0
    · simp only [Vec3.maxAbs, max_le_iff]
      exact ⟨dashDecay_abs_bound dt _ _ hdt hx, dashDecay_abs_bound dt _ _ hdt hy,
        dashDecay_abs_bound dt _ _ hdt hz⟩
    · simp only [Vec3.maxAbs, abs_zero, max_self]
      positivity

/-- In exact arithmetic, for `dt > 0` and any start, repeated `movePlayer`
steps bring the dash to rest. After every step each component of
`dashDirection` is at least 0 and of magnitude no larger than before; after
`N = ⌈m / (2 * dt)⌉` steps or more, `m` being the largest component magnitude
at the start, `dashDirection` is exactly `(0, 0, 0)`; `N` is at least 1 when
the start is nonzero; and a step from `(0, 0, 0)` leaves `(0, 0, 0)`. -/
theorem dash_rest_exact (dt : ℚ) (hdt : 0 < dt) (p : Player) :
    (∀ g : Game,
      0 ≤ (movePlayer g dt p).dashDirection.x ∧ 0 ≤ (movePlayer g dt p).dashDirection.y ∧
      0 ≤ (movePlayer g dt p).dashDirection.z ∧
      |(movePlayer g dt p).dashDirection.x| ≤ |p.dashDirection.x| ∧
      |(movePlayer g dt p).dashDirection.y| ≤ |p.dashDirection.y| ∧
      |(movePlayer g dt p).dashDirection.z| ≤ |p.dashDirection.z|) ∧
    (∀ gs : List Game, ⌈p.dashDirection.maxAbs / (2 * dt)⌉₊ ≤ gs.length →
      (movePlayerSteps gs dt p).dashDirection = ⟨0, 0, 0⟩) ∧
    (p.dashDirection ≠ ⟨0, 0, 0⟩ → 1 ≤ ⌈p.dashDirection.maxAbs / (2 * dt)⌉₊) ∧
    (p.dashDirection = ⟨0, 0, 0⟩ → ∀ g : Game, (movePlayer g dt p).dashDirection = ⟨0, 0, 0⟩) := by
  have h2 : 0 < 2 * dt := by linarith
  refine ⟨?_, ?_, ?_, ?_⟩
  · intro g
    rw [movePlayer_dashDirection]
    split_ifs with h0
    · exact ⟨dashDecay_nonneg _ _, dashDecay_nonneg _ _, dashDecay_nonneg _ _,
        dashDecay_abs_le _ _ hdt.le, dashDecay_abs_le _ _ hdt.le, dashDecay_abs_le _ _ hdt.le⟩
    · simp
  · intro gs hN
    apply movePlayerSteps_rest dt hdt.le
    have := Nat.ceil_le.mp hN
    rw [div_le_iff₀ h2] at this
    linarith
  · intro hne
    rw [Nat.one_le_iff_ne_zero, Ne, Nat.ceil_eq_zero, not_le]
    apply div_pos _ h2
    by_contra hle
    exact hne (Vec3.eq_zero_of_maxAbs_le _ (not_lt.mp hle))
  · intro hz g
    rw [movePlayer_dashDirection, if_neg (not_not.mpr hz)]

/-- In exact arithmetic with `dt = 1/4` the dash `(1, 0, -1)` is at rest after
two steps. -/
theorem dash_rest_exact_sample :
    (movePlayerSteps [idleFrame 1, idleFrame 2] (1 / 4)
      (dashingPlayer ⟨1, 0, -1⟩)).dashDirection = ⟨0, 0, 0⟩ :=
  (dash_rest_exact (1 / 4) (by norm_num) (dashingPlayer ⟨1, 0, -1⟩)).2.1
    [idleFrame 1, idleFrame 2]
    (by
      rw [Nat.ceil_le]
      norm_num [Vec3.maxAbs, dashingPlayer, newPlayer])

/-! ## Dash decay in binary32 arithmetic -/

/-- Where the product and the difference are binary32 values already, the
rounded decay is the exact one. -/
theorem dashDecay32_of_exact (dt d : ℚ) (h1 : IsFloat32 (2 * dt))
    (h2 : IsFloat32 (d - 2 * dt)) : dashDecay32 dt d = dashDecay dt d := by
  unfold dashDecay32 dashDecay
  unfold IsFloat32 at h1 h2
  rw [h1, h2]

/-- With zero collision displacement an airborne player stays airborne and
loses exactly `dt` of vertical velocity in one `moveVertical` step. -/
theorem moveVertical_airborne (g : Game) (dt : ℚ) (q : Player) (hq : q.grounded = false)
    (hz : ∀ r, g.currentLevel.checkPlayerLevelCollision r = ⟨0, 0, 0⟩) :
    (moveVertical g dt q).grounded = false ∧
    (moveVertical g dt q).verticalVelocity = q.verticalVelocity - dt := by
  simp [moveVertical, jumpStep, groundStep, airStep, hq, hz]

/-- Counterexample to C8 as stated: the grounded sample player, space
pressed, zero displacement, `dt = 1/10`. The step ends airborne with vertical
velocity `9/10`, not `1`. -/
theorem moveVertical_jump_counterexample :
    newPlayer.grounded = true ∧ (jumpFrame 1).keySpace = true ∧ (0 : ℚ) ≤ 1 / 10 ∧
    (∀ r, (jumpFrame 1).currentLevel.checkPlayerLevelCollision r = ⟨0, 0, 0⟩) ∧
    (moveVertical (jumpFrame 1) (1 / 10) newPlayer).grounded = false ∧
    (moveVertical (jumpFrame 1) (1 / 10) newPlayer).verticalVelocity = 9 / 10 ∧
    (moveVertical (jumpFrame 1) (1 / 10) newPlayer).verticalVelocity ≠ 1 := by
  have h : (moveVertical (jumpFrame 1) (1 / 10) newPlayer).verticalVelocity = 9 / 10 := by
    norm_num [moveVertical, jumpStep, groundStep, airStep, jumpFrame, idleFrame, newPlayer,
      openLevel]
  refine ⟨rfl, rfl, by norm_num, fun _ => rfl, ?_, h, ?_⟩
  · simp [moveVertical, jumpStep, groundStep, airStep, jumpFrame, idleFrame, newPlayer,
      openLevel]
  · rw [h]; norm_num

/-- C8 (amended): for a grounded player with the space key pressed and zero
collision displacement, one `moveVertical` step ends with `grounded = false`
and `verticalVelocity = 1 - dt` (the impulse 1 is set, then the airborne
branch of the same step subtracts `dt`), with the jump sound as the only
sound; a following step with zero displacement keeps `grounded = false` and
lowers `verticalVelocity` by exactly its `dt`. -/
theorem moveVertical_jump (g g2 : Game) (dt dt2 : ℚ) (p : Player)
    (hgr : p.grounded = true) (hsp : g.keySpace = true)
    (hz : ∀ r, g.currentLevel.checkPlayerLevelCollision r = ⟨0, 0, 0⟩)
    (hz2 : ∀ r, g2.currentLevel.checkPlayerLevelCollision r = ⟨0, 0, 0⟩) :
    (moveVertical g dt p).grounded = false ∧
    (moveVertical g dt p).verticalVelocity = 1 - dt ∧
    (moveVertical g dt p).audio = p.audio ++ [Clip.jumpAudio] ∧
    (moveVertical g2 dt2 (moveVertical g dt p)).grounded = false ∧
    (moveVertical g2 dt2 (moveVertical g dt p)).verticalVelocity =
      (moveVertical g dt p).verticalVelocity - dt2 := by
  have h1 : (moveVertical g dt p).grounded = false ∧
      (moveVertical g dt p).verticalVelocity = 1 - dt ∧
      (moveVertical g dt p).audio = p.audio ++ [Clip.jumpAudio] := by
    simp [moveVertical, jumpStep, groundStep, airStep, hgr, hsp, hz]
  have h2 := moveVertical_airborne g2 dt2 (moveVertical g dt p) h1.1 hz2
  exact ⟨h1.1, h1.2.1, h1.2.2, h2.1, h2.2⟩

/-- Witness of C8 (amended): the sample player jumps at clock 1 with
`dt = 1/10` and falls for one more step. -/
theorem moveVertical_jump_witness :
    (moveVertical (jumpFrame 1) (1 / 10) newPlayer).grounded = false ∧
    (moveVertical (jumpFrame 1) (1 / 10) newPlayer).verticalVelocity = 1 - 1 / 10 ∧
    (moveVertical (idleFrame 2) (1 / 10)
      (moveVertical (jumpFrame 1) (1 / 10) newPlayer)).grounded = false :=
  have h := moveVertical_jump (jumpFrame 1) (idleFrame 2) (1 / 10) (1 / 10) newPlayer
    rfl rfl (fun _ => rfl) (fun _ => rfl)
  ⟨h.1, h.2.1, h.2.2.2.1⟩


/-! ## The out-of-bounds transition inside a frame -/

/-- Counterexample to C9 as stated: the sample player in a frame whose level
reports out-of-bounds, with space and both mouse buttons pressed. Right after
the out-of-bounds check the player is DEAD, grounded, with no bullet and no
sound; at the end of the same `processInput` it has jumped, fired and dashed. -/
theorem processInput_outOfBounds_counterexample :
    (busyFrame 2).currentLevel.outOfBounds (movePlayerMotion (busyFrame 2) (1 / 10) newPlayer)
      = true ∧
    (fun r : Player => (r.state, r.bullets.length, r.audio, r.verticalVelocity, r.grounded,
        r.lastFireTime, r.lastDashTime)) (movePlayer (busyFrame 2) (1 / 10) newPlayer) =
      (CharState.DEAD, 0, [], -(1 / 10), true, 0, 0) ∧
    (processInput (busyFrame 2) (1 / 10) newPlayer).map
        (fun r => (r.state, r.bullets.length, r.audio, r.verticalVelocity, r.grounded,
          r.lastFireTime, r.lastDashTime)) =
      some (CharState.DEAD, 1, [Clip.jumpAudio, Clip.shootAudio, Clip.dashAudio], 9 / 10, false,
        2, 2) := by
  refine ⟨rfl, ?_, ?_⟩
  · norm_num [movePlayer, movePlayerMotion, keyMovement, busyFrame, idleFrame, voidLevel,
      openLevel, newPlayer]
  · norm_num [processInput, movePlayer, movePlayerMotion, keyMovement, moveVertical, jumpStep,
      groundStep, airStep, rotatePlayer, fireInput, fire, dashInput, busyFrame, idleFrame,
      voidLevel, openLevel, newPlayer]

/-- C9 (amended): when the level reports out-of-bounds at the check of
`movePlayer`, for a player whose `modelIndex` is inside both model arrays
(entries `cm` of `charModels` and `dm` of `deathModels`), the frame completes
with state DEAD and unchanged hp, and the horizontal position is the one at
the check; the rest of the frame still runs. The vertical position, the
vertical velocity and `grounded` are those `moveVertical` computes.
`rotatePlayer` sets the yaw to the cursor angle for the mid-point of `cm` and
leaves the other two angles. Exactly when mouse1 is held with the fire
cooldown elapsed, `lastFireTime` is set and one bullet is appended: at the
mid-point of `dm`, along the facing direction of the new yaw, with the palette
colour picked by `rand()`, the new yaw, `bulletScale` and budget 10. Exactly
when mouse2 is held with the dash cooldown elapsed, `lastDashTime` is set and
`dashDirection` becomes the facing direction of the new yaw. The sounds of
`moveVertical`, of the shot and of the dash are played in that order. -/
theorem processInput_outOfBounds (g : Game) (dt : ℚ) (p : Player)
    (hoob : g.currentLevel.outOfBounds (movePlayerMotion g dt p) = true)
    (hc : p.modelIndex < p.charModels.length) (hd : p.modelIndex < p.deathModels.length) :
    ∃ cm dm r, p.charModels[p.modelIndex]? = some cm ∧
      p.deathModels[p.modelIndex]? = some dm ∧ processInput g dt p = some r ∧
      (movePlayer g dt p).state = CharState.DEAD ∧ r.state = CharState.DEAD ∧ r.hp = p.hp ∧
      r.pos.x = (movePlayer g dt p).pos.x ∧ r.pos.z = (movePlayer g dt p).pos.z ∧
      r.pos.y = (moveVertical g dt (movePlayer g dt p)).pos.y ∧
      r.verticalVelocity = (moveVertical g dt (movePlayer g dt p)).verticalVelocity ∧
      r.grounded = (moveVertical g dt (movePlayer g dt p)).grounded ∧
      r.rotate = { p.rotate with
        y := g.cursorYaw (midPos (moveVertical g dt (movePlayer g dt p)) cm) } ∧
      ((g.mouse1 = true ∧ g.elapsedTime - p.lastFireTime ≥ p.fireCooldown) →
        r.bullets = p.bullets ++ [⟨midPos (moveVertical g dt (movePlayer g dt p)) dm,
          g.facing r.rotate.y, bulletColors.getD (g.rand % bulletColors.length) Vec3.zero,
          r.rotate.y, p.bulletScale, 10⟩] ∧
        r.lastFireTime = g.elapsedTime) ∧
      (¬ (g.mouse1 = true ∧ g.elapsedTime - p.lastFireTime ≥ p.fireCooldown) →
        r.bullets = p.bullets ∧ r.lastFireTime = p.lastFireTime) ∧
      ((g.mouse2 = true ∧ g.elapsedTime - p.lastDashTime ≥ p.dashCooldown) →
        r.lastDashTime = g.elapsedTime ∧ r.dashDirection = g.facing r.rotate.y) ∧
      (¬ (g.mouse2 = true ∧ g.elapsedTime - p.lastDashTime ≥ p.dashCooldown) →
        r.lastDashTime = p.lastDashTime ∧
        r.dashDirection = (movePlayer g dt p).dashDirection) ∧
      r.audio = (moveVertical g dt (movePlayer g dt p)).audio
        ++ (if g.mouse1 = true ∧ g.elapsedTime - p.lastFireTime ≥ p.fireCooldown
            then [Clip.shootAudio] else [])
        ++ (if g.mouse2 = true ∧ g.elapsedTime - p.lastDashTime ≥ p.dashCooldown
            then [Clip.dashAudio] else []) := by
  have hdead : (movePlayer g dt p).state = CharState.DEAD := by
    unfold movePlayer
    dsimp only
    rw [if_pos hoob]
  obtain ⟨k1, k2, k3, -, -, -, k7, k8, k9, k10⟩ := moveVertical_movePlayer_keeps g dt p
  obtain ⟨kr, -, -⟩ := moveVertical_movePlayer_keeps_aim g dt p
  obtain ⟨kx, kz⟩ := moveVertical_pos_xz g dt (movePlayer g dt p)
  have kd : (moveVertical g dt (movePlayer g dt p)).dashDirection =
      (movePlayer g dt p).dashDirection := by rw [moveVertical_frame]
  obtain ⟨cm, hcm⟩ := lookup_some p.charModels p.modelIndex hc
  obtain ⟨dm, hdm⟩ := lookup_some p.deathModels p.modelIndex hd
  have hfm : (if (movePlayer g dt p).state = CharState.ALIVE then p.charModels[p.modelIndex]?
      else p.deathModels[p.modelIndex]?) = some dm := by
    rw [hdead, if_neg (by decide)]
    exact hdm
  have hshape := processInput_shape g dt p cm dm hcm hfm
  rw [hdead] at k10
  refine ⟨cm, dm, _, hcm, hdm, hshape, hdead, ?_⟩
  generalize moveVertical g dt (movePlayer g dt p) = q at k1 k2 k3 k7 k8 k9 k10 kr kx kz kd ⊢
  by_cases hf : g.mouse1 = true ∧ g.elapsedTime - p.lastFireTime ≥ p.fireCooldown <;>
  by_cases hdash : g.mouse2 = true ∧ g.elapsedTime - p.lastDashTime ≥ p.dashCooldown
  · have hdash2 : g.mouse2 = true ∧ g.elapsedTime - q.lastDashTime ≥ q.dashCooldown := by
      rw [k7, k8]; exact hdash
    rw [if_pos hf, if_pos hf, if_pos hdash]
    unfold dashInput
    rw [if_pos hdash2]
    exact ⟨k10, k9, kx, kz, rfl, rfl, rfl, by rw [← kr], fun _ => ⟨rfl, rfl⟩,
      fun h => absurd hf h, fun _ => ⟨rfl, rfl⟩, fun h => absurd hdash h, by simp⟩
  · have hdash2 : ¬ (g.mouse2 = true ∧ g.elapsedTime - q.lastDashTime ≥ q.dashCooldown) := by
      rw [k7, k8]; exact hdash
    rw [if_pos hf, if_pos hf, if_neg hdash]
    unfold dashInput
    rw [if_neg hdash2]
    exact ⟨k10, k9, kx, kz, rfl, rfl, rfl, by rw [← kr], fun _ => ⟨rfl, rfl⟩,
      fun h => absurd hf h, fun h => absurd h hdash, fun _ => ⟨k7, kd⟩, by simp⟩
  · have hdash2 : g.mouse2 = true ∧ g.elapsedTime - q.lastDashTime ≥ q.dashCooldown := by
      rw [k7, k8]; exact hdash
    rw [if_neg hf, if_neg hf, if_pos hdash]
    unfold dashInput
    rw [if_pos hdash2]
    exact ⟨k10, k9, kx, kz, rfl, rfl, rfl, by rw [← kr], fun h => absurd h hf,
      fun _ => ⟨k1, k2⟩, fun _ => ⟨rfl, rfl⟩, fun h => absurd hdash h, by simp⟩
  · have hdash2 : ¬ (g.mouse2 = true ∧ g.elapsedTime - q.lastDashTime ≥ q.dashCooldown) := by
      rw [k7, k8]; exact hdash
    rw [if_neg hf, if_neg hf, if_neg hdash]
    unfold dashInput
    rw [if_neg hdash2]
    exact ⟨k10, k9, kx, kz, rfl, rfl, rfl, by rw [← kr], fun h => absurd h hf,
      fun _ => ⟨k1, k2⟩, fun h => absurd h hdash, fun _ => ⟨k7, kd⟩, by simp⟩

/-- Witness of C9 (amended): the sample player in the out-of-bounds frame
with space and both buttons pressed ends the frame DEAD, and the frame has
fired. -/
theorem processInput_outOfBounds_witness :
    ∃ r, processInput (busyFrame 2) (1 / 10) newPlayer = some r ∧ r.state = CharState.DEAD ∧
      r.lastFireTime = (busyFrame 2).elapsedTime :=
  (processInput_outOfBounds (busyFrame 2) (1 / 10) newPlayer rfl
    (by simp [newPlayer]) (by simp [newPlayer])).elim
    fun _ h1 => h1.elim fun _ h2 => h2.elim fun r h =>
      ⟨r, h.2.2.1, h.2.2.2.2.1,
        (h.2.2.2.2.2.2.2.2.2.2.2.2.1 ⟨rfl, by norm_num [busyFrame, idleFrame, newPlayer]⟩).2⟩

/-! ## Model lookups -/

/-- A frame of an ALIVE player satisfying the model-index invariant performs
its lookups in range: `processInput` completes. -/
theorem processInput_alive_some (g : Game) (dt : ℚ) (p : Player) (h : ModelIndexValid p)
    (hs : p.state = CharState.ALIVE) : ∃ r, processInput g dt p = some r := by
  obtain ⟨h2, h5, hi⟩ := h
  rw [if_pos hs] at hi
  obtain ⟨cm, fm, hcm, hfm⟩ := lookups_some g dt p hi (by omega)
  exact ⟨_, processInput_shape g dt p cm fm hcm hfm⟩

/-- With the model-index invariant the state-selected lookup of `fire` is in
range, whatever the state. -/
theorem fire_lookup_valid (g : Game) (p : Player) (h : ModelIndexValid p) :
    ∃ r, fire g p = some r := by
  obtain ⟨-, -, hi⟩ := h
  by_cases hs : p.state = CharState.ALIVE
  · rw [if_pos hs] at hi
    obtain ⟨m, hm⟩ := lookup_some p.charModels p.modelIndex hi
    exact ⟨_, fire_some g p m (by rw [if_pos hs]; exact hm)⟩
  · rw [if_neg hs] at hi
    obtain ⟨m, hm⟩ := lookup_some p.deathModels p.modelIndex hi
    exact ⟨_, fire_some g p m (by rw [if_neg hs]; exact hm)⟩

/-- `takeDamage` preserves the model-index invariant. -/
theorem takeDamage_modelIndexValid (g : Game) (p : Player) (h : ModelIndexValid p) :
    ModelIndexValid (takeDamage g p) := by
  obtain ⟨h2, h5, hi⟩ := h
  unfold takeDamage
  dsimp only
  split_ifs with a1 a2 a3 a4
  · exact ⟨h2, h5, hi⟩
  · exact ⟨h2, h5, hi⟩
  · exact ⟨h2, h5, hi⟩
  · refine ⟨h2, h5, ?_⟩
    dsimp only
    rw [if_neg (by decide), h5]
    norm_num
  · exact ⟨h2, h5, hi⟩

/-- `movePlayer`, its out-of-bounds transition included, preserves the
model-index invariant. -/
theorem movePlayer_modelIndexValid (g : Game) (dt : ℚ) (p : Player) (h : ModelIndexValid p) :
    ModelIndexValid (movePlayer g dt p) := by
  obtain ⟨h2, h5, hi⟩ := h
  have hi5 : p.modelIndex < p.deathModels.length := by
    split_ifs at hi <;> omega
  rcases movePlayer_state g dt p with hs | hs
  · rw [movePlayer_frame]
    refine ⟨h2, h5, ?_⟩
    dsimp only
    rw [hs]
    exact hi
  · rw [movePlayer_frame]
    refine ⟨h2, h5, ?_⟩
    dsimp only
    rw [hs, if_neg (by decide)]
    exact hi5

/-- C10 (evaluation at the failing input): the sample player while DYING
with `modelIndex = 2` satisfies the model-index invariant (2 is a valid index
into the five `deathModels`), yet `rotatePlayer` indexes the two-entry
`charModels` at 2, so the lookup is out of range and neither `rotatePlayer`
nor `processInput` has a defined result. -/
theorem processInput_dying_lookup :
    ModelIndexValid dyingPlayer ∧
    dyingPlayer.state = CharState.DYING ∧
    dyingPlayer.charModels.length ≤ dyingPlayer.modelIndex ∧
    rotatePlayer (idleFrame 2) (1 / 10) dyingPlayer = none ∧
    processInput (idleFrame 2) (1 / 10) dyingPlayer = none := by
  refine ⟨?_, rfl, ?_, ?_, ?_⟩
  · simp [ModelIndexValid, dyingPlayer, newPlayer]
  · simp [dyingPlayer, newPlayer]
  · simp [rotatePlayer, dyingPlayer, newPlayer]
  · norm_num [processInput, movePlayer, movePlayerMotion, keyMovement, moveVertical, jumpStep,
      groundStep, airStep, rotatePlayer, fireInput, fire, dashInput, idleFrame, openLevel,
      newPlayer, dyingPlayer]

end SkyRoad
